import Mathlib

/-!
Verification development for the hybrid event-retrieval and conversational
disambiguation engine of the d-bot backend (`ai.service.js`).

The JavaScript source is shallowly embedded: JS strings are Lean `String`s
manipulated through their character lists, JS numbers used by the quality
scorer are `Int`, fallible external calls (document store, embedding service,
generation service) are supplied as explicit environment data, and a thrown
JS exception is `Except.error`.  JS regular expressions are interpreted by a
small fuel-bounded backtracking matcher (`reMatch`) over an abstract-syntax
datatype `RE`, preserving the leftmost / greedy / alternation-order semantics
of the originals on the inputs considered here.
-/

namespace DBot

/-! ## JS string primitives -/

/-- Whitespace as recognised by JS `\s`, `trim`, `split(/\s+/)` (ASCII part). -/
def jsIsWs (c : Char) : Bool :=
  c = ' ' || c = '\t' || c = '\n' || c = '\r' || c = '\x0b' || c = '\x0c'

/-- ASCII lower-casing of one character, as `String.prototype.toLowerCase`
does on the ASCII range. -/
def jsCharLower (c : Char) : Char :=
  if 'A' ≤ c ∧ c ≤ 'Z' then Char.ofNat (c.toNat + 32) else c

def jsLowerL (l : List Char) : List Char := l.map jsCharLower

def trimL (l : List Char) : List Char :=
  ((l.dropWhile jsIsWs).reverse.dropWhile jsIsWs).reverse

/-- JS `s.toLowerCase()`. -/
def jsToLower (s : String) : String := String.mk (jsLowerL s.data)

/-- JS `s.trim()`. -/
def jsTrim (s : String) : String := String.mk (trimL s.data)

/-- JS `s.length` (code units; characters for the BMP strings modelled here). -/
def jsLen (s : String) : Nat := s.data.length

/-- Is `n` a prefix of `h` (character lists)? -/
def prefixL : List Char → List Char → Bool
  | [], _ => true
  | _ :: _, [] => false
  | a :: as, b :: bs => a = b && prefixL as bs

/-- Does `n` occur as a contiguous substring of `h`? -/
def infixL (n : List Char) : List Char → Bool
  | [] => n.isEmpty
  | b :: bs => prefixL n (b :: bs) || infixL n bs

/-- JS `hay.includes(needle)`. -/
def includesB (hay needle : String) : Bool := infixL needle.data hay.data

/-- Number of maximal runs of non-whitespace characters. -/
def countRuns (l : List Char) : Nat :=
  (l.foldl
    (fun (st : Nat × Bool) c =>
      if jsIsWs c then (st.1, false)
      else if st.2 then st else (st.1 + 1, true))
    (0, false)).1

/-- JS `q.split(/\s+/).length` for an already-trimmed `q`
(`"".split(/\s+/)` is `[""]`, of length 1). -/
def jsWordCount (l : List Char) : Nat := if l.isEmpty then 1 else countRuns l

/-- Maximal runs of non-separator characters (used to model splitting
on a separator class followed by discarding empty pieces). -/
def runsBy (sep : Char → Bool) (l : List Char) : List (List Char) :=
  (l.foldr
    (fun c (acc : List (List Char)) =>
      if sep c then [] :: acc
      else
        match acc with
        | [] => [[c]]
        | t :: ts => (c :: t) :: ts)
    []).filter (fun t => !t.isEmpty)

/-! ## Data model

`EventRecord` mirrors a document of the `events` collection as read by
`ai.service.js`: `idStr` is `result._id.toString()`, `event_details` the
optional structured sub-object. -/

structure EventDetails where
  event_name : Option String := none
  organizer : Option String := none
  event_date : Option String := none
  event_time : Option String := none
  location : Option String := none
  entry_type : Option String := none
  website : Option String := none
deriving DecidableEq

structure EventRecord where
  idStr : String
  event_details : Option EventDetails := none
  full_text : Option String := none
  embedding : Option (List Int) := none
deriving DecidableEq

def emptyDetails : EventDetails := {}

/-- JS `result.event_details?.event_name || ''`. -/
def rawEventName (e : EventRecord) : String :=
  (e.event_details.bind EventDetails.event_name).getD ""

/-! ## Quality scorer (`calculateEventQuality`) -/

/-- JS truthiness-plus-placeholder test for a detail field:
`details.f && details.f !== 'N/A' && details.f.trim().length > 0`. -/
def fieldOKB : Option String → Bool
  | none => false
  | some s => s ≠ "" && s ≠ "N/A" && jsTrim s ≠ ""

/-- `eventName.match(/^[A-Z]{2,3}$/)` is truthy. -/
def acr23 (s : String) : Bool :=
  (s.data.length = 2 || s.data.length = 3) && s.data.all (fun c => 'A' ≤ c && c ≤ 'Z')

/-- `eventName.match(/^[A-Z]{2,4}$/)` is truthy. -/
def acr24 (s : String) : Bool :=
  (2 ≤ s.data.length && s.data.length ≤ 4) && s.data.all (fun c => 'A' ≤ c && c ≤ 'Z')

/-- `calculateEventQuality` of `ai.service.js`: completeness score of a
record's details, clamped below at 0 by `Math.max`. -/
def calculateEventQuality (event : EventRecord) : Int :=
  let details := event.event_details.getD emptyDetails
  let eventName := jsTrim (details.event_name.getD "")
  let nameScore : Int :=
    if eventName ≠ "" && eventName ≠ "N/A" && jsLen eventName > 0 then
      (if jsLen eventName ≤ 3 && !acr23 eventName then (-20 : Int) else 0)
        + (if jsLen eventName > 3 || acr24 eventName then 30 else 0)
    else 0
  let score := nameScore
    + (if fieldOKB details.event_date then 25 else 0)
    + (if fieldOKB details.location then 20 else 0)
    + (if fieldOKB details.event_time then 10 else 0)
    + (if fieldOKB details.organizer then 10 else 0)
    + (if fieldOKB details.website then 5 else 0)
  max 0 score

/-! ## Keyword extractor (step 2 of `retrieveRelevantEvents`) -/

def stopWords : List String :=
  ["show", "me", "any", "event", "events", "of", "in", "for", "the", "a", "an",
   "find", "search", "about", "is", "are", "which", "what", "when", "where"]

/-- Separator class of `queryText.toLowerCase().split(/[\s,.?!]+/)`. -/
def isSepChar (c : Char) : Bool :=
  jsIsWs c || c = ',' || c = '.' || c = '?' || c = '!'

/-- Tokenise the query, keep tokens of length > 2 outside the stop-word set. -/
def extractKeywords (queryText : String) : List String :=
  ((runsBy isSepChar (jsLowerL queryText.data)).map String.mk).filter
    (fun t => jsLen t > 2 && !stopWords.contains t)

/-! ## Merge and deduplication (step 3 of `retrieveRelevantEvents`) -/

/-- `(result.event_details?.event_name || '').toLowerCase().trim()`. -/
def effName (e : EventRecord) : String := jsTrim (jsToLower (rawEventName e))

/-- `eventName.replace(/[^a-z0-9]/g, '')` applied to the lowercased name. -/
def normalizeName (s : String) : String :=
  String.mk (s.data.filter (fun c => ('a' ≤ c && c ≤ 'z') || ('0' ≤ c && c ≤ '9')))

/-- `eventName.match(/^[a-z]{3,}$/)` is truthy. -/
def isThreeLetterWord (s : String) : Bool :=
  3 ≤ s.data.length && s.data.all (fun c => 'a' ≤ c && c ≤ 'z')

/-- The name-based noise test of the merge loop:
`eventName.length <= 3 && !eventName.match(/^[a-z]{3,}$/)`. -/
def noiseNameB (e : EventRecord) : Bool :=
  jsLen (effName e) ≤ 3 && !isThreeLetterWord (effName e)

/-- The merge loop's skip condition for a record, given the ids and
normalized names already kept. -/
def dropB (ids names : List String) (e : EventRecord) : Bool :=
  ids.contains e.idStr
    || noiseNameB e
    || (normalizeName (effName e) ≠ "" && names.contains (normalizeName (effName e)))

/-- One iteration of the merge loop; the state is
(seenIds, seenNames, uniqueResults). -/
def dedupStep (st : List String × List String × List EventRecord) (e : EventRecord) :
    List String × List String × List EventRecord :=
  if dropB st.1 st.2.1 e then st
  else
    (e.idStr :: st.1,
     (if normalizeName (effName e) ≠ "" then normalizeName (effName e) :: st.2.1 else st.2.1),
     st.2.2 ++ [e])

/-- Step 3 of `retrieveRelevantEvents`: merge `[...vectorResults, ...keywordResults]`
and deduplicate by id and normalized name. -/
def mergeDedup (l : List EventRecord) : List EventRecord :=
  (l.foldl dedupStep ([], [], [])).2.2

/-! ## Quality filtering, ranking, truncation (steps 4-6) -/

/-- Strict-pass filter: extra short-name rejection, then `quality >= 50`. -/
def strictKeepB (e : EventRecord) : Bool :=
  let eventName := jsTrim (rawEventName e)
  !(jsLen eventName ≤ 3 && !acr23 eventName) && calculateEventQuality e ≥ 50

/-- Lenient-pass filter: reject names of length ≤ 2, then `quality >= 40`. -/
def lenientKeepB (e : EventRecord) : Bool :=
  !(jsLen (jsTrim (rawEventName e)) ≤ 2) && calculateEventQuality e ≥ 40

/-- Stable insertion of a record into a list sorted by quality descending:
the new element goes after all elements of greater-or-equal quality.  This is
the behaviour of the (stable) `Array.prototype.sort` with comparator
`(a, b) => calculateEventQuality(b) - calculateEventQuality(a)`. -/
def insertByQuality (r : EventRecord) : List EventRecord → List EventRecord
  | [] => [r]
  | x :: xs =>
    if calculateEventQuality x < calculateEventQuality r then r :: x :: xs
    else x :: insertByQuality r xs

/-- Model of the stable JS sort by quality score descending. -/
def sortByQualityDesc (l : List EventRecord) : List EventRecord :=
  l.foldl (fun acc r => insertByQuality r acc) []

/-- Steps 4-6 of `retrieveRelevantEvents`: strict quality filter, one-shot
lenient retry, sort by quality descending, truncate to `lim`, and the final
`finalResults.length > 0 ? finalResults : []`. -/
def qualityRank (unique : List EventRecord) (lim : Nat) : List EventRecord :=
  let qualityFiltered := unique.filter strictKeepB
  if qualityFiltered.length = 0 && unique.length > 0 then
    let lenientFiltered := unique.filter lenientKeepB
    if lenientFiltered.length > 0 then (sortByQualityDesc lenientFiltered).take lim
    else
      let finalResults := (sortByQualityDesc qualityFiltered).take lim
      if finalResults.length > 0 then finalResults else []
  else
    let finalResults := (sortByQualityDesc qualityFiltered).take lim
    if finalResults.length > 0 then finalResults else []

/-! ## `retrieveRelevantEvents`

The document store's answers are environment data: `vector` is the outcome of
the `$vectorSearch` aggregation (an `Except` since a missing index throws),
`kwTokens` / `kwPhrase` the keyword `find` results for the per-token and the
whole-phrase query, and `kwThrows` models the keyword `find` itself throwing,
which the function-level `try/catch` converts to `[]`. -/

structure RetrEnv where
  vector : Except Unit (List EventRecord) := .ok []
  kwTokens : List EventRecord := []
  kwPhrase : List EventRecord := []
  kwThrows : Bool := false

structure RTrace where
  vectorTried : Bool := false
  vectorFailed : Bool := false
  keywordTokensRan : Bool := false
  keywordPhraseRan : Bool := false
deriving DecidableEq

def retrieveRelevantEvents (emb : Option (List Int)) (queryText : String)
    (lim : Nat) (env : RetrEnv) : List EventRecord × RTrace :=
  let st1 : List EventRecord × RTrace :=
    match emb with
    | some _ =>
      match env.vector with
      | .ok l => (l, { vectorTried := true })
      | .error _ => ([], { vectorTried := true, vectorFailed := true })
    | none => ([], {})
  let st2 : List EventRecord × RTrace :=
    if queryText ≠ "" then
      if (extractKeywords queryText).length > 0 then
        (env.kwTokens, { st1.2 with keywordTokensRan := true })
      else
        (env.kwPhrase, { st1.2 with keywordPhraseRan := true })
    else ([], st1.2)
  if env.kwThrows && queryText ≠ "" then ([], st2.2)
  else (qualityRank (mergeDedup (st1.1 ++ st2.1)) lim, st2.2)

/-! ## A small regex interpreter

`RE` covers the constructs the source's regular expressions use; `reMatch` is
a fuel-bounded CPS backtracking matcher with JS semantics: alternation tries
the left alternative first, `star`/`opt` are greedy, `lazystar` is lazy, and
`.` (`dotAny`) matches anything but a line terminator. -/

inductive RE where
  | eps : RE
  | eos : RE
  | cls : (Char → Bool) → RE
  | str : List Char → RE
  | stri : List Char → RE
  | seq : RE → RE → RE
  | alt : RE → RE → RE
  | star : RE → RE
  | lazystar : RE → RE
  | opt : RE → RE

/-- Case-insensitive prefix test: the pattern is stored lowercased. -/
def prefixCIL : List Char → List Char → Bool
  | [], _ => true
  | _ :: _, [] => false
  | p :: ps, c :: cs => jsCharLower c = p && prefixCIL ps cs

def reMatch {β : Type} : Nat → RE → List Char → (List Char → Option β) → Option β
  | 0, _, _, _ => none
  | _ + 1, .eps, l, k => k l
  | _ + 1, .eos, l, k => if l.isEmpty then k l else none
  | _ + 1, .cls p, l, k =>
    match l with
    | [] => none
    | c :: rest => if p c then k rest else none
  | _ + 1, .str pat, l, k => if prefixL pat l then k (l.drop pat.length) else none
  | _ + 1, .stri pat, l, k => if prefixCIL pat l then k (l.drop pat.length) else none
  | fuel + 1, .seq a b, l, k => reMatch fuel a l (fun r => reMatch fuel b r k)
  | fuel + 1, .alt a b, l, k =>
    match reMatch fuel a l k with
    | some v => some v
    | none => reMatch fuel b l k
  | fuel + 1, .star r, l, k =>
    match reMatch fuel r l
        (fun rest => if rest.length < l.length then reMatch fuel (.star r) rest k else none) with
    | some v => some v
    | none => k l
  | fuel + 1, .lazystar r, l, k =>
    match k l with
    | some v => some v
    | none =>
      reMatch fuel r l
        (fun rest => if rest.length < l.length then reMatch fuel (.lazystar r) rest k else none)
  | fuel + 1, .opt r, l, k =>
    match reMatch fuel r l k with
    | some v => some v
    | none => k l

/-- Fuel bounding the depth of one backtracking path. -/
def reFuel (l : List Char) : Nat := 60 * l.length + 600

def strW (s : String) : RE := .str s.data

/-- Case-insensitive literal; write the argument lowercased. -/
def striW (s : String) : RE := .stri s.data

def altListRE : List RE → RE
  | [] => .cls (fun _ => false)
  | [r] => r
  | r :: rs => .alt r (altListRE rs)

def rplus (r : RE) : RE := .seq r (.star r)

/-- `r{n,}` (greedy). -/
def repAtLeast (n : Nat) (r : RE) : RE := (List.replicate n r).foldr RE.seq (RE.star r)

def digitRE : RE := .cls Char.isDigit

def wsRE : RE := .cls jsIsWs

def isAsciiLetter (c : Char) : Bool := ('A' ≤ c && c ≤ 'Z') || ('a' ≤ c && c ≤ 'z')

def isWordCharB (c : Char) : Bool := isAsciiLetter c || c.isDigit || c = '_'

/-- JS `.` without the `s` flag: anything but a line terminator. -/
def dotAny : RE := .cls (fun c => c ≠ '\n' && c ≠ '\r')

/-- `/^re/.test(s)`. -/
def reTestA (re : RE) (s : String) : Bool :=
  (reMatch (β := Unit) (reFuel s.data) re s.data (fun _ => some ())).isSome

/-- Scan left to right, remembering the previous character (for `\b`);
`tryAt prev l` attempts a match starting at `l`. -/
def searchPos {β : Type} (tryAt : Option Char → List Char → Option β) :
    Option Char → List Char → Option β
  | prev, [] => tryAt prev []
  | prev, c :: rest =>
    match tryAt prev (c :: rest) with
    | some v => some v
    | none => searchPos tryAt (some c) rest

/-- `/re/.test(s)` (no word-boundary at the start of the pattern). -/
def reTestS (re : RE) (s : String) : Bool :=
  (searchPos (β := Unit)
    (fun _ l => reMatch (reFuel s.data) re l (fun _ => some ())) none s.data).isSome

/-- First match of `seq pre cap` scanning left to right, returning the text
consumed by `cap` (the capture group); `needB` asks for `\b` before the match. -/
def findCapture (pre cap : RE) (needB : Bool) (s : List Char) : Option (List Char) :=
  searchPos
    (fun prev l =>
      if needB && (match prev with | some p => isWordCharB p | none => false) then none
      else
        reMatch (reFuel s) pre l
          (fun r1 => reMatch (reFuel s) cap r1
            (fun r2 => some (r1.take (r1.length - r2.length)))))
    none s

/-- First match of `re` scanning left to right, returning the whole matched
text (`match[0]`). -/
def findMatch0 (re : RE) (needB : Bool) (s : List Char) : Option (List Char) :=
  searchPos
    (fun prev l =>
      if needB && (match prev with | some p => isWordCharB p | none => false) then none
      else reMatch (reFuel s) re l (fun r => some (l.take (l.length - r.length))))
    none s

/-- JS `s.replace(re, '')` for a non-global `re`: remove the first match. -/
def replFirst (re : RE) : List Char → List Char
  | [] =>
    (match reMatch (reFuel []) re [] (fun r => some r) with
     | some r => r
     | none => [])
  | c :: cs =>
    match reMatch (reFuel (c :: cs)) re (c :: cs) (fun r => some r) with
    | some rest => rest
    | none => c :: replFirst re cs

/-! ## Conversation turns -/

inductive Role where
  | user : Role
  | ai : Role
deriving DecidableEq

/-- A caller-supplied conversation turn `{role, content}`; the source tags
assistant turns with the role string `'ai'`. -/
structure Turn where
  role : Role
  content : String
deriving DecidableEq

/-- JS `list.slice(-n)`. -/
def lastN {α : Type} (n : Nat) (l : List α) : List α := l.drop (l.length - n)

/-! ## Follow-up classifier (`isFollowUpQuestion`) -/

def detailWords : List String :=
  ["date", "time", "location", "place", "contact", "number", "phone", "email",
   "website", "address", "price", "cost", "when", "where", "who", "what",
   "which", "how", "their", "they", "its", "the"]

def eventKeywords : List String :=
  ["event", "festival", "concert", "show", "stadium", "venue", "location",
   "uppal", "holi", "colour"]

def detailNouns1 : List String :=
  ["date", "time", "location", "place", "contact", "number", "price", "cost",
   "website", "email", "phone"]

def strAlt (l : List String) : RE := altListRE (l.map strW)

/-- `/^(which|what|when|where|who|whose)\s+(date|...|phone)/i`. -/
def fuPat1 : RE :=
  .seq (strAlt ["which", "what", "when", "where", "who", "whose"])
    (.seq (rplus wsRE) (strAlt detailNouns1))

/-- `/^(the\s+)?(date|...|address)/i`. -/
def fuPat2 : RE :=
  .seq (.opt (.seq (strW "the") (rplus wsRE)))
    (strAlt (detailNouns1 ++ ["address"]))

/-- `/^(their|its|his|her|they)\s+/i`. -/
def fuPat3 : RE := .seq (strAlt ["their", "its", "his", "her", "they"]) (rplus wsRE)

/-- `/^(contact|phone|email|website|address|price|cost|date|time|location|place)/i`. -/
def fuPat4 : RE :=
  strAlt ["contact", "phone", "email", "website", "address", "price", "cost",
          "date", "time", "location", "place"]

/-- `/^(how much|how long|how many|how far)/i`. -/
def fuPat5 : RE := strAlt ["how much", "how long", "how many", "how far"]

/-- `/(contact|phone)\s*(number|details|info)?$/i`. -/
def fuPat6 : RE :=
  .seq (strAlt ["contact", "phone"])
    (.seq (.star wsRE) (.seq (.opt (strAlt ["number", "details", "info"])) .eos))

/-- `/^(when|where|who|what time|what date)/i`. -/
def fuPat7 : RE := strAlt ["when", "where", "who", "what time", "what date"]

/-- `/^(tell|give|show).*(more|details|info|about)/i`. -/
def fuPat8 : RE :=
  .seq (strAlt ["tell", "give", "show"])
    (.seq (.star dotAny) (strAlt ["more", "details", "info", "about"]))

/-- `/more\s+about/i`. -/
def fuPat9 : RE := .seq (strW "more") (.seq (rplus wsRE) (strW "about"))

/-- `/about\s+(the|this|that|it)/i`. -/
def fuPat10 : RE :=
  .seq (strW "about") (.seq (rplus wsRE) (strAlt ["the", "this", "that", "it"]))

/-- `/^(tell|give|show|what).*(more|details|info|about)/i` (the "asking about
an event" shape of the history-overlap check). -/
def askAboutPat : RE :=
  .seq (strAlt ["tell", "give", "show", "what"])
    (.seq (.star dotAny) (strAlt ["more", "details", "info", "about"]))

/-- `isFollowUpQuestion` of `ai.service.js`: the patterns run on the
lowercased, trimmed question, so the `/i` literals are written lowercased. -/
def isFollowUpQuestion (question : String) (conversationHistory : List Turn) : Bool :=
  let q := jsTrim (jsToLower question)
  let wordCount := jsWordCount q.data
  if wordCount ≤ 3 && conversationHistory.length > 0
      && detailWords.any (fun w => includesB q w) then
    true
  else
    let sectionB :=
      if conversationHistory.length > 0 then
        let recentMessages :=
          String.intercalate " "
            ((lastN 6 conversationHistory).map (fun m => jsToLower m.content))
        let hasEventReference := eventKeywords.any (fun w => includesB recentMessages w)
        let isAskingAboutEvent :=
          includesB q "tell me more" || includesB q "more about"
            || includesB q "about the" || includesB q "about this"
            || includesB q "about that" || includesB q "about"
            || reTestA askAboutPat q
        hasEventReference && isAskingAboutEvent
      else false
    if sectionB then true
    else
      reTestA fuPat1 q || reTestA fuPat2 q || reTestA fuPat3 q || reTestA fuPat4 q
        || reTestA fuPat5 q || reTestS fuPat6 q || reTestA fuPat7 q
        || reTestA fuPat8 q || reTestS fuPat9 q || reTestS fuPat10 q

/-! ## History answer extractor (`extractAnswerFromHistory`)

The question `q` arrives lowercased and trimmed, so its `/i` patterns are
written lowercase; the patterns on a turn's content run on the original text
and use case-insensitive literals where the source has the `/i` flag. -/

def dotStarSeq (a b : String) : RE := .seq (strW a) (.seq (.star dotAny) (strW b))

def tellPatterns : List RE :=
  [dotStarSeq "tell" "about", dotStarSeq "tell" "that", dotStarSeq "tell" "it",
   dotStarSeq "tell" "this", dotStarSeq "say" "about", dotStarSeq "can" "tell",
   dotStarSeq "could" "tell"]

def ampmRE : RE := .alt (striW "am") (striW "pm")

/-- `\d{1,2}`. -/
def d12RE : RE := .seq digitRE (.opt digitRE)

/-- `\d{1,2}:\d{2}`. -/
def clockRE : RE := .seq d12RE (.seq (strW ":") (.seq digitRE digitRE))

/-- `(?:to|-)?`. -/
def toDashRE : RE := .opt (.alt (striW "to") (strW "-"))

/-- `/(\d{1,2}\s*(?:am|pm|AM|PM)\s*(?:to|-)?\s*\d{1,2}\s*(?:am|pm|AM|PM))/i`. -/
def timePat1 : RE :=
  .seq d12RE (.seq (.star wsRE) (.seq ampmRE (.seq (.star wsRE) (.seq toDashRE
    (.seq (.star wsRE) (.seq d12RE (.seq (.star wsRE) ampmRE)))))))

/-- `/(\d{1,2}:\d{2}\s*(?:am|pm|AM|PM)?\s*(?:to|-)?\s*\d{1,2}:\d{2}\s*(?:am|pm|AM|PM)?)/i`. -/
def timePat2 : RE :=
  .seq clockRE (.seq (.star wsRE) (.seq (.opt ampmRE) (.seq (.star wsRE)
    (.seq toDashRE (.seq (.star wsRE) (.seq clockRE (.seq (.star wsRE) (.opt ampmRE))))))))

/-- `/(\d{1,2}\s*(?:pm|PM|am|AM)\s*to\s*\d{1,2}\s*(?:pm|PM|am|AM))/i`. -/
def timePat3 : RE :=
  .seq d12RE (.seq (.star wsRE) (.seq ampmRE (.seq (.star wsRE) (.seq (striW "to")
    (.seq (.star wsRE) (.seq d12RE (.seq (.star wsRE) ampmRE)))))))

/-- `/from\s*(\d{1,2}\s*(?:am|pm|AM|PM)|\d{1,2}:\d{2})\s*to\s*(...)/i`. -/
def timePat4 : RE :=
  let piece := .alt (.seq d12RE (.seq (.star wsRE) ampmRE)) clockRE
  .seq (striW "from") (.seq (.star wsRE) (.seq piece
    (.seq (.star wsRE) (.seq (striW "to") (.seq (.star wsRE) piece)))))

def timePats : List RE := [timePat1, timePat2, timePat3, timePat4]

def letterRE : RE := .cls isAsciiLetter

/-- `[a-zA-Z0-9._%+-]+@[a-zA-Z0-9.-]+\.[a-zA-Z]{2,}`. -/
def emailRE : RE :=
  .seq (rplus (.cls (fun c => isAsciiLetter c || c.isDigit
      || c = '.' || c = '_' || c = '%' || c = '+' || c = '-')))
    (.seq (strW "@")
      (.seq (rplus (.cls (fun c => isAsciiLetter c || c.isDigit || c = '.' || c = '-')))
        (.seq (strW ".") (repAtLeast 2 letterRE))))

/-- `\d{10,}`. -/
def digits10RE : RE := repAtLeast 10 digitRE

/-- The contact extraction patterns: (prefix before the lazy gap, capture). -/
def contactPats : List (RE × RE) :=
  [(.seq (striW "contact") (.lazystar dotAny), emailRE),
   (.seq (striW "email") (.lazystar dotAny), emailRE),
   (.seq (striW "phone") (.lazystar dotAny), digits10RE),
   (.seq (striW "call") (.lazystar dotAny), digits10RE)]

def letterOrWsRE : RE := .cls (fun c => isAsciiLetter c || jsIsWs c)

/-- `([A-Za-z][A-Za-z\s]+)`, the capture of the first four location patterns. -/
def locCapRE : RE := .seq letterRE (rplus letterOrWsRE)

/-- The venue-noun alternation closing the fifth location pattern. -/
def venueRE : RE :=
  altListRE
    ([striW "cafe", striW "stadium", striW "hall", striW "center", striW "theater",
      striW "park", striW "venue", striW "arena", striW "auditorium", striW "ground",
      striW "hotel", striW "restaurant", striW "club", striW "bar", striW "studio",
      striW "gallery", striW "mall", striW "plaza", striW "square", striW "garden",
      striW "beach", striW "resort", striW "academy", striW "institute", striW "school",
      striW "college", striW "university", striW "library", striW "museum",
      striW "theatre", striW "cinema", striW "field",
      .seq (striW "ground") (.opt (striW "s"))])

/-- The ordered location patterns as (prefix, capture, needs `\b`). -/
def locationPats : List (RE × RE × Bool) :=
  [(.seq (striW "at") (rplus wsRE), locCapRE, true),
   (.seq (striW "happening") (.seq (rplus wsRE)
      (.seq (.alt (striW "at") (striW "in")) (rplus wsRE))), locCapRE, false),
   (.seq (.alt (striW "located") (striW "takes place")) (.seq (rplus wsRE)
      (.seq (.alt (striW "at") (striW "in")) (rplus wsRE))), locCapRE, false),
   (.seq (altListRE [striW "venue", striW "location", striW "place"])
      (.seq (strW ":") (.star wsRE)), locCapRE, false),
   (.seq (altListRE [striW "at", striW "venue", striW "location", striW "place"])
      (rplus wsRE), .seq letterRE (.seq (.star letterOrWsRE) venueRE), false)]

def isPunct6 (c : Char) : Bool :=
  c = '.' || c = ',' || c = '!' || c = '?' || c = ';' || c = ':'

def isPunct4 (c : Char) : Bool := c = '.' || c = ',' || c = '!' || c = '?'

/-- `/[.,!?;:]+.*$/`. -/
def punctToEndRE : RE := .seq (rplus (.cls isPunct6)) (.seq (.star dotAny) .eos)

/-- `/[.,!?;:]+$/`. -/
def punctTrailRE : RE := .seq (rplus (.cls isPunct6)) .eos

def locationSkipWords : List String :=
  ["the", "a", "an", "at", "in", "on", "for", "to", "from", "and", "or", "but",
   "it", "is", "was", "are", "were"]

/-- Cleaning applied to a capture of the first five location patterns:
trim, cut from the first punctuation run to the end, take the piece before
any `[.,!?]`, trim. -/
def cleanLocation (cap : List Char) : String :=
  let l1 := trimL cap
  let l2 := trimL (replFirst punctToEndRE l1)
  String.mk (trimL (l2.takeWhile (fun c => !isPunct4 c)))

/-- The for-loop over `locationPatterns`: the first pattern whose capture
also passes the length/skip-word check wins; a failing check moves on to the
next pattern. -/
def tryLocationPats : List (RE × RE × Bool) → List Char → Option String
  | [], _ => none
  | (pre, cap, nb) :: rest, content =>
    match findCapture pre cap nb content with
    | some capd =>
      let location := cleanLocation capd
      if jsLen location > 2 && !locationSkipWords.contains (jsToLower location) then
        some ("The event is happening at " ++ location ++ ".")
      else tryLocationPats rest content
    | none => tryLocationPats rest content

def upperRE : RE := .cls (fun c => 'A' ≤ c && c ≤ 'Z')

def lowerRE : RE := .cls (fun c => 'a' ≤ c && c ≤ 'z')

/-- `/\bat\s+([A-Z][a-z]+(?:\s+[A-Z][a-z]+){0,2})/` (case-sensitive). -/
def broadAtCapRE : RE :=
  let seg := .seq (rplus wsRE) (.seq upperRE (rplus lowerRE))
  .seq upperRE (.seq (rplus lowerRE) (.opt (.seq seg (.opt seg))))

/-- `/\bat\s+([A-Z][A-Za-z]+(?:\s+[A-Z][A-Za-z]+)*)/` (case-sensitive). -/
def simpleAtCapRE : RE :=
  .seq upperRE (.seq (rplus letterRE) (.star (.seq (rplus wsRE) (.seq upperRE (rplus letterRE)))))

def startsUpper (s : String) : Bool :=
  match s.data with
  | [] => false
  | c :: _ => 'A' ≤ c && c ≤ 'Z'

/-- The broad fallback after the pattern loop. -/
def tryBroadAt (content : List Char) : Option String :=
  match findCapture (.seq (strW "at") (rplus wsRE)) broadAtCapRE true content with
  | some capd =>
    let location := String.mk (trimL (replFirst punctTrailRE (trimL capd)))
    if jsLen location > 3 && startsUpper location then
      some ("The event is happening at " ++ location ++ ".")
    else none
  | none => none

/-- The additional simple fallback after the broad one. -/
def trySimpleAt (content : List Char) : Option String :=
  match findCapture (.seq (strW "at") (rplus wsRE)) simpleAtCapRE true content with
  | some capd =>
    let l1 := trimL (replFirst punctTrailRE (trimL capd))
    let location := String.mk (trimL (l1.takeWhile (fun c => !isPunct4 c)))
    if jsLen location > 3 && startsUpper location then
      some ("The event is happening at " ++ location ++ ".")
    else none
  | none => none

def monthsRE : RE :=
  altListRE
    ([striW "january", striW "february", striW "march", striW "april", striW "may",
      striW "june", striW "july", striW "august", striW "september", striW "october",
      striW "november", striW "december"])

/-- `(?:st|nd|rd|th)?`. -/
def ordSufRE : RE := .opt (altListRE [striW "st", striW "nd", striW "rd", striW "th"])

def datePats : List RE :=
  [.seq monthsRE (.seq (rplus wsRE) (.seq d12RE ordSufRE)),
   .seq d12RE (.seq ordSufRE (.seq (rplus wsRE) monthsRE)),
   .seq (striW "on") (.seq (rplus wsRE)
     (.seq (rplus (.cls isWordCharB)) (.seq (rplus wsRE) d12RE)))]

/-- The rules `extractAnswerFromHistory` tries on one assistant turn's
content, in source order (tell-about, time, contact, location, date). -/
def extractFromMsg (q : String) (content : String) : Option String :=
  let c := content.data
  let r1 :=
    if (includesB q "tell" || includesB q "say" || tellPatterns.any (fun p => reTestS p q))
        && (includesB q "about" || includesB q "that" || includesB q "it"
            || includesB q "this")
        && jsLen content > 30 then
      some content
    else none
  let r2 :=
    if includesB q "time" || (includesB q "when" && !includesB q "date") then
      (timePats.findSome? (fun p => findMatch0 p false c)).map
        (fun m => "The event is scheduled " ++ String.mk m ++ ".")
    else none
  let r3 :=
    if includesB q "contact" || (includesB q "who" && includesB q "contact")
        || includesB q "organizer" then
      (contactPats.findSome? (fun pc => findCapture pc.1 pc.2 false c)).map
        (fun m => "You can contact them at " ++ String.mk m ++ ".")
    else none
  let r4 :=
    if includesB q "where" || includesB q "location" || includesB q "venue"
        || includesB q "place" then
      match tryLocationPats locationPats c with
      | some ans => some ans
      | none =>
        match tryBroadAt c with
        | some ans => some ans
        | none => trySimpleAt c
    else none
  let r5 :=
    if includesB q "date" || (includesB q "when" && includesB q "date") then
      (datePats.findSome? (fun p => findMatch0 p false c)).map
        (fun m => "The event is on " ++ String.mk m ++ ".")
    else none
  (((r1.orElse fun _ => r2).orElse fun _ => r3).orElse fun _ => r4).orElse fun _ => r5

/-- `extractAnswerFromHistory` of `ai.service.js`: needs at least two turns,
then scans assistant turns from most recent to oldest and applies
`extractFromMsg` to the first ones until a rule fires. -/
def extractAnswerFromHistory (question : String) (conversationHistory : List Turn) :
    Option String :=
  if conversationHistory.length < 2 then none
  else
    let q := jsTrim (jsToLower question)
    conversationHistory.reverse.findSome?
      (fun msg =>
        if msg.role = Role.ai ∧ msg.content ≠ "" then extractFromMsg q msg.content
        else none)

/-! ## Name-gate helpers -/

/-- `/^(my name is|i'?m|i am|it'?s|it is|this is|call me|name'?s)\s+/i`. -/
def namePrefixRE : RE :=
  .seq
    (altListRE
      [striW "my name is",
       .seq (striW "i") (.seq (.opt (strW "'")) (striW "m")),
       striW "i am",
       .seq (striW "it") (.seq (.opt (strW "'")) (striW "s")),
       striW "it is", striW "this is", striW "call me",
       .seq (striW "name") (.seq (.opt (strW "'")) (striW "s"))])
    (rplus wsRE)

/-- `/[.,!?]+$/`. -/
def punct4TrailRE : RE := .seq (rplus (.cls isPunct4)) .eos

/-- JS `s.split(/\s+/)`: maximal non-whitespace runs, `[""]` for the empty
string (only the first pieces matter to the caller, which takes three). -/
def jsSplitWsTokens (l : List Char) : List (List Char) :=
  if l.isEmpty then [[]] else runsBy jsIsWs l

/-- `extractUserName`: strip a self-introduction prefix, strip trailing
punctuation, keep at most three words. -/
def extractUserName (text : String) : String :=
  let name := trimL text.data
  let name :=
    match reMatch (reFuel name) namePrefixRE name (fun r => some r) with
    | some rest => rest
    | none => name
  let name := replFirst punct4TrailRE name
  let words := (jsSplitWsTokens name).take 3
  jsTrim (String.intercalate " " (words.map String.mk))

/-- Does an assistant turn's content contain one of the name-request phrases? -/
def asksNameB (content : String) : Bool :=
  let lc := jsToLower content
  includesB lc "what is ur name" || includesB lc "what is your name"
    || includesB lc "what's your name"

/-- `getUserName`: scan user turns from most recent to oldest; when the turn
before one is an assistant turn that asked for the name, extract the name
from that user turn. -/
def getUserName (conversationHistory : List Turn) : Option String :=
  ((conversationHistory.zip conversationHistory.tail).reverse).findSome?
    (fun pm =>
      if pm.2.role = Role.user ∧ pm.1.role = Role.ai ∧ asksNameB pm.1.content then
        some (extractUserName pm.2.content)
      else none)

/-- JS truthiness of the name `getUserName` returns (`null` and `''` are
both falsy). -/
def userNameTruthy (conversationHistory : List Turn) : Bool :=
  match getUserName conversationHistory with
  | some n => n ≠ ""
  | none => false

/-- `shouldAskForName`. -/
def shouldAskForName (conversationHistory : List Turn) : Bool :=
  if conversationHistory.isEmpty then false
  else if userNameTruthy conversationHistory then false
  else
    let userMessages := conversationHistory.filter (fun m => m.role = Role.user)
    if userMessages.length = 1 then
      let hasAskedForName :=
        conversationHistory.any (fun m => m.role = Role.ai && asksNameB m.content)
      !hasAskedForName
    else false

/-- `isNameResponse`: the second-to-last turn is an assistant turn that asked
for the name. -/
def isNameResponse (conversationHistory : List Turn) : Bool :=
  match conversationHistory.reverse with
  | _ :: prev :: _ => prev.role = Role.ai && asksNameB prev.content
  | _ => false

/-! ## Orchestrator (`getChatResponse`) and standard search

External behaviour is environment data: `dbList` is the outcome of the
unfiltered `events` query of the list-all-events intent, `embedding` what
`generateEmbedding` returns (it catches its own failures and yields `null`),
`retr` the document-store behaviour seen by `retrieveRelevantEvents`, `chat`
the generation call's outcome, `ctxThrows` an unexpected error between
retrieval and the generation call (the outer net's trigger on that path), and
`stdSearch` the store's answer to `performStandardSearch`. -/

structure ChatResult where
  answer : String
  sources : List EventRecord
deriving DecidableEq

deriving instance DecidableEq for Except

inductive ChatOutcome where
  /-- A provider block with `status === 'success'` and this `generated_text`. -/
  | success (text : String) : ChatOutcome
  /-- HTTP success but no provider succeeded: the first fallback block. -/
  | noProvider : ChatOutcome
  /-- Non-ok HTTP or a thrown fetch error: the `catch (chatError)` block. -/
  | failure : ChatOutcome
deriving DecidableEq

structure Env where
  dbList : Except Unit (List EventRecord) := .ok []
  embedding : Option (List Int) := none
  retr : RetrEnv := {}
  chat : ChatOutcome := .noProvider
  ctxThrows : Bool := false
  stdSearch : Except Unit (List EventRecord) := .ok []

structure Trace where
  embedCalled : Bool := false
  retrieveCalled : Bool := false
  chatCalled : Bool := false
  stdCalled : Bool := false
deriving DecidableEq

/-- `performStandardSearch`: a keyword-only phrase search; a store failure is
logged and rethrown. -/
def performStandardSearch (query : String) (env : Env) : Except Unit ChatResult :=
  match env.stdSearch with
  | .ok results =>
    .ok
      { answer :=
          if results.length > 0 then
            "Found " ++ toString results.length ++ " events matching \"" ++ query ++ "\"."
          else "No events found matching \"" ++ query ++ "\"."
        sources := results }
  | .error e => .error e

/-- `detectIntent`: greeting (deferred to the name logic), list-all-events
(a store query, which can throw), help. -/
def detectIntent (question : String) (env : Env) : Except Unit (Option ChatResult) :=
  let q := jsToLower question
  if ["hi", "hello", "hey", "greetings", "good morning", "good evening"].any
      (fun g => prefixL g.data q.data) then
    .ok none
  else if includesB q "all events" || includesB q "show events" || includesB q "any events"
      || includesB q "latest events" || q = "events" then
    match env.dbList with
    | .error e => .error e
    | .ok events =>
      .ok (some
        { answer :=
            if includesB q "latest" then
              "Here are the " ++ toString events.length ++ " most recently posted events! 📅"
            else "Here are " ++ toString events.length ++ " events I found for you! 📅"
          sources := events })
  else if includesB q "help" || includesB q "what can you do" || includesB q "what do you do"
      || includesB q "what u do" || includesB q "what can u do"
      || reTestS (dotStarSeq "what" "do") q || reTestS (dotStarSeq "what" "can") q
      || q = "what u do" || q = "what do you do" || q = "what can you do" then
    .ok (some
      { answer := "I'm here to help you discover events! 🕵️‍♂️\n\nYou can ask me things like:\n- 'Show me upcoming music festivals'\n- 'Are there any free events?'\n- 'What's happening in Borcelle?'"
        sources := [] })
  else .ok none

/-- One numbered line of the degraded event summary. -/
def eventSummaryLine (idx : Nat) (e : EventRecord) : String :=
  let details := e.event_details.getD emptyDetails
  let name :=
    match details.event_name with
    | some n => if n ≠ "" then n else "Event"
    | none => "Event"
  let date :=
    match details.event_date with
    | some d => if d ≠ "" && d ≠ "N/A" then d else ""
    | none => ""
  let location :=
    match details.location with
    | some d => if d ≠ "" && d ≠ "N/A" then d else ""
    | none => ""
  let time :=
    match details.event_time with
    | some d => if d ≠ "" && d ≠ "N/A" then d else ""
    | none => ""
  toString (idx + 1) ++ ". " ++ name
    ++ (if date ≠ "" then " on " ++ date else "")
    ++ (if time ≠ "" then " at " ++ time else "")
    ++ (if location ≠ "" then " at " ++ location else "")

/-- The itemized top-3 summary answer used when generation is down but
events were found. -/
def summaryAnswer (relevantEvents : List EventRecord) : String :=
  let n := relevantEvents.length
  let eventSummary :=
    String.intercalate "\n"
      ((relevantEvents.take 3).enum.map (fun p => eventSummaryLine p.1 p.2))
  "I found " ++ toString n ++ " event" ++ (if n ≠ 1 then "s" else "")
    ++ " related to your search! 📅\n\n" ++ eventSummary
    ++ (if n > 3 then
          "\n\n...and " ++ toString (n - 3) ++ " more event"
            ++ (if n - 3 ≠ 1 then "s" else "") ++ "!"
        else "")

def foundMsg (n : Nat) : String :=
  "I found " ++ toString n ++ " event" ++ (if n ≠ 1 then "s" else "")
    ++ " related to your search! Here they are: 👇"

def troubleMsg : String :=
  "I'm having a little trouble accessing that information right now. Could you try asking about the event details again?"

def notFoundMsg : String :=
  "I couldn't find any events matching your search. Try different keywords!"

/-- The generation-failure fallback chain: history extraction for follow-ups,
the itemized summary for fresh queries with sources, otherwise a canned
message; duplicated verbatim in the source for the no-provider case and the
thrown case. -/
def chatFallback (isFollowUp : Bool) (question : String) (conversationHistory : List Turn)
    (relevantEvents : List EventRecord) : ChatResult :=
  match (if isFollowUp then extractAnswerFromHistory question conversationHistory
         else none) with
  | some extractedAnswer => { answer := extractedAnswer, sources := [] }
  | none =>
    if !isFollowUp && relevantEvents.length > 0 then
      { answer := summaryAnswer relevantEvents, sources := relevantEvents }
    else
      { answer :=
          if isFollowUp then troubleMsg
          else if relevantEvents.length > 0 then foundMsg relevantEvents.length
          else notFoundMsg
        sources := if isFollowUp then [] else relevantEvents }

/-- The outer `catch`: salvage already-fetched sources, otherwise degrade to
`performStandardSearch`, whose own failure propagates. -/
def outerNet (question : String) (relevantEvents : List EventRecord) (env : Env)
    (tr : Trace) : Except Unit ChatResult × Trace :=
  if relevantEvents.length > 0 then
    (.ok { answer := foundMsg relevantEvents.length, sources := relevantEvents }, tr)
  else
    match performStandardSearch question env with
    | .ok r => (.ok r, { tr with stdCalled := true })
    | .error e => (.error e, { tr with stdCalled := true })

/-- Steps 4-7 of the orchestrator, after `relevantEvents` is settled: context
assembly (whose unexpected failure `ctxThrows` models), the generation call,
the success return with the follow-up source suppression, and the fallback
chain. -/
def afterRetrieval (question : String) (conversationHistory : List Turn)
    (isFollowUp : Bool) (relevantEvents : List EventRecord) (env : Env) (tr : Trace) :
    Except Unit ChatResult × Trace :=
  if env.ctxThrows then outerNet question relevantEvents env tr
  else
    match env.chat with
    | .success text =>
      (.ok { answer := text, sources := if isFollowUp then [] else relevantEvents },
       { tr with chatCalled := true })
    | .noProvider =>
      (.ok (chatFallback isFollowUp question conversationHistory relevantEvents),
       { tr with chatCalled := true })
    | .failure =>
      (.ok (chatFallback isFollowUp question conversationHistory relevantEvents),
       { tr with chatCalled := true })

/-- `getChatResponse` of `ai.service.js`.  The prompt strings assembled in
steps 4-5 of the source are passed only to the generation service, whose
outcome `env.chat` already encodes, so they are not re-built here; every
branch that decides the result or an external call is. -/
def getChatResponse (question : String) (conversationHistory : List Turn)
    (user : Option String) (env : Env) : Except Unit ChatResult × Trace :=
  if user.isNone && shouldAskForName conversationHistory then
    (.ok { answer := "what is ur name", sources := [] }, {})
  else if user.isNone && isNameResponse conversationHistory
      && extractUserName question ≠ "" then
    (.ok { answer := "Nice to meet you, " ++ extractUserName question
             ++ "! 😊 Now, how can I help you with events today?"
           sources := [] }, {})
  else
    match detectIntent question env with
    | .error _ => outerNet question [] env {}
    | .ok (some intentResult) => (.ok intentResult, {})
    | .ok none =>
      let isFollowUp := isFollowUpQuestion question conversationHistory
      if isFollowUp && conversationHistory.length > 0 then
        afterRetrieval question conversationHistory isFollowUp [] env {}
      else
        let relevantEvents :=
          (retrieveRelevantEvents env.embedding question 20 env.retr).1
        afterRetrieval question conversationHistory isFollowUp relevantEvents env
          { embedCalled := true, retrieveCalled := true }

/-! ## Lemmas about the stable quality sort -/

theorem insertByQuality_perm (r : EventRecord) (l : List EventRecord) :
    (insertByQuality r l).Perm (r :: l) := by
  induction l with
  | nil => exact List.Perm.refl _
  | cons x xs ih =>
    unfold insertByQuality
    split
    · exact List.Perm.refl _
    · exact (List.Perm.cons x ih).trans (List.Perm.swap r x xs)

theorem insertByQuality_pairwise (r : EventRecord) (l : List EventRecord)
    (h : l.Pairwise (fun a b => calculateEventQuality b ≤ calculateEventQuality a)) :
    (insertByQuality r l).Pairwise
      (fun a b => calculateEventQuality b ≤ calculateEventQuality a) := by
  induction l with
  | nil => simp [insertByQuality]
  | cons x xs ih =>
    rw [List.pairwise_cons] at h
    unfold insertByQuality
    split
    · rename_i hlt
      refine List.pairwise_cons.mpr ⟨?_, List.pairwise_cons.mpr ⟨h.1, h.2⟩⟩
      intro b hb
      rcases List.mem_cons.mp hb with rfl | hb
      · exact le_of_lt hlt
      · exact le_trans (h.1 _ hb) (le_of_lt hlt)
    · rename_i hge
      refine List.pairwise_cons.mpr ⟨?_, ih h.2⟩
      intro b hb
      have hb' : b ∈ r :: xs := (insertByQuality_perm r xs).mem_iff.mp hb
      rcases List.mem_cons.mp hb' with rfl | hb'
      · exact le_of_not_lt hge
      · exact h.1 _ hb'

theorem sortByQualityDesc_eq_foldl (l : List EventRecord) :
    sortByQualityDesc l = l.foldl (fun acc r => insertByQuality r acc) [] := rfl

theorem foldl_insertByQuality_perm (l acc : List EventRecord) :
    (l.foldl (fun a r => insertByQuality r a) acc).Perm (acc ++ l) := by
  induction l generalizing acc with
  | nil => simp
  | cons x xs ih =>
    refine (ih (insertByQuality x acc)).trans ?_
    refine ((insertByQuality_perm x acc).append_right xs).trans ?_
    exact (List.perm_middle).symm

theorem sortByQualityDesc_perm (l : List EventRecord) :
    (sortByQualityDesc l).Perm l := by
  simpa using foldl_insertByQuality_perm l []

theorem foldl_insertByQuality_pairwise (l acc : List EventRecord)
    (h : acc.Pairwise (fun a b => calculateEventQuality b ≤ calculateEventQuality a)) :
    (l.foldl (fun a r => insertByQuality r a) acc).Pairwise
      (fun a b => calculateEventQuality b ≤ calculateEventQuality a) := by
  induction l generalizing acc with
  | nil => simpa
  | cons x xs ih => exact ih _ (insertByQuality_pairwise x acc h)

theorem sortByQualityDesc_pairwise (l : List EventRecord) :
    (sortByQualityDesc l).Pairwise
      (fun a b => calculateEventQuality b ≤ calculateEventQuality a) :=
  foldl_insertByQuality_pairwise l [] (by simp)

theorem insertByQuality_filter (r : EventRecord) (l : List EventRecord) (k : Int)
    (h : l.Pairwise (fun a b => calculateEventQuality b ≤ calculateEventQuality a)) :
    (insertByQuality r l).filter (fun e => calculateEventQuality e == k)
      = l.filter (fun e => calculateEventQuality e == k)
        ++ (if calculateEventQuality r == k then [r] else []) := by
  induction l with
  | nil =>
    by_cases hk : calculateEventQuality r = k <;>
      simp [insertByQuality, List.filter_cons, hk]
  | cons x xs ih =>
    rw [List.pairwise_cons] at h
    unfold insertByQuality
    split
    · rename_i hlt
      by_cases hk : calculateEventQuality r = k
      · have hnone : (x :: xs).filter (fun e => calculateEventQuality e == k) = [] := by
          refine List.filter_eq_nil_iff.mpr ?_
          intro a ha
          rcases List.mem_cons.mp ha with rfl | ha
          · simp only [beq_iff_eq]; omega
          · have := h.1 _ ha
            simp only [beq_iff_eq]; omega
        rw [show ((r :: x :: xs).filter (fun e => calculateEventQuality e == k))
            = r :: ((x :: xs).filter (fun e => calculateEventQuality e == k)) from by
          simp [List.filter_cons, hk]]
        rw [hnone]
        simp [hk]
      · have hr : ((r :: x :: xs).filter (fun e => calculateEventQuality e == k))
            = (x :: xs).filter (fun e => calculateEventQuality e == k) := by
          simp [List.filter_cons, hk]
        rw [hr]
        simp [hk]
    · rename_i hge
      by_cases hx : calculateEventQuality x = k <;>
        simp [List.filter_cons, hx, ih h.2]

theorem sortByQualityDesc_filter_stable (l : List EventRecord) (k : Int) :
    (sortByQualityDesc l).filter (fun e => calculateEventQuality e == k)
      = l.filter (fun e => calculateEventQuality e == k) := by
  induction l using List.reverseRecOn with
  | nil => rfl
  | append_singleton l r ih =>
    have hsort : sortByQualityDesc (l ++ [r]) = insertByQuality r (sortByQualityDesc l) := by
      simp [sortByQualityDesc, List.foldl_append]
    rw [hsort, insertByQuality_filter r _ k (sortByQualityDesc_pairwise l), ih,
      List.filter_append]
    split <;> simp_all [List.filter_cons]

/-! ## Lemmas about the merge loop -/

theorem dedupStep_acc (st : List String × List String × List EventRecord)
    (e : EventRecord) :
    (dedupStep st e).2.2 = if dropB st.1 st.2.1 e then st.2.2 else st.2.2 ++ [e] := by
  unfold dedupStep
  split <;> simp_all

theorem mergeDedup_mem_not_noise (l : List EventRecord) (st) (e : EventRecord)
    (h : e ∈ (l.foldl dedupStep st).2.2) :
    e ∈ st.2.2 ∨ noiseNameB e = false := by
  induction l generalizing st with
  | nil => exact Or.inl h
  | cons a as ih =>
    rcases ih (dedupStep st a) h with hmem | hno
    · unfold dedupStep at hmem
      split at hmem
      · exact Or.inl hmem
      · rename_i hdrop
        rcases List.mem_append.mp hmem with hmem | hmem
        · exact Or.inl hmem
        · have : e = a := by simpa using hmem
          subst this
          right
          unfold dropB at hdrop
          simp only [Bool.or_eq_true, not_or] at hdrop
          simpa using hdrop.1.2
    · exact Or.inr hno

/-- A state of the merge loop rejects a record. -/
def absorbs (st : List String × List String × List EventRecord) (e : EventRecord) : Prop :=
  dropB st.1 st.2.1 e = true

/-- The ids and names a merge state has seen only grow along the loop. -/
def subState (a b : List String × List String × List EventRecord) : Prop :=
  (∀ x, a.1.contains x = true → b.1.contains x = true)
    ∧ (∀ x, a.2.1.contains x = true → b.2.1.contains x = true)

theorem dropB_mono (a b : List String × List String × List EventRecord)
    (hsub : subState a b) (e : EventRecord) (h : dropB a.1 a.2.1 e = true) :
    dropB b.1 b.2.1 e = true := by
  unfold dropB at h ⊢
  simp only [Bool.or_eq_true, Bool.and_eq_true, decide_eq_true_eq] at h ⊢
  rcases h with (h | h) | h
  · exact Or.inl (Or.inl (hsub.1 _ h))
  · exact Or.inl (Or.inr h)
  · exact Or.inr ⟨h.1, hsub.2 _ h.2⟩

theorem subState_refl (a : List String × List String × List EventRecord) :
    subState a a := ⟨fun _ h => h, fun _ h => h⟩

theorem subState_trans {a b c : List String × List String × List EventRecord}
    (h1 : subState a b) (h2 : subState b c) : subState a c :=
  ⟨fun x h => h2.1 x (h1.1 x h), fun x h => h2.2 x (h1.2 x h)⟩

theorem dedupStep_subState (st : List String × List String × List EventRecord)
    (e : EventRecord) : subState st (dedupStep st e) := by
  unfold dedupStep
  split
  · exact subState_refl st
  · constructor
    · intro x h
      have h' : x ∈ st.1 := by simpa using h
      simp [h']
    · intro x h
      have h' : x ∈ st.2.1 := by simpa using h
      by_cases hn : normalizeName (effName e) = "" <;> simp [hn, h']

theorem foldl_dedupStep_subState (l : List EventRecord)
    (st : List String × List String × List EventRecord) :
    subState st (l.foldl dedupStep st) := by
  induction l generalizing st with
  | nil => exact subState_refl st
  | cons a as ih =>
    exact subState_trans (dedupStep_subState st a) (ih (dedupStep st a))

theorem dedupStep_absorbs (st : List String × List String × List EventRecord)
    (e : EventRecord) : absorbs (dedupStep st e) e := by
  unfold absorbs dedupStep
  split
  · assumption
  · unfold dropB
    simp [List.contains_cons]

theorem foldl_dedupStep_absorbs (l : List EventRecord) :
    ∀ (st : List String × List String × List EventRecord) (e : EventRecord),
      e ∈ l → absorbs (l.foldl dedupStep st) e := by
  induction l with
  | nil => intro st e he; cases he
  | cons a as ih =>
    intro st e he
    rcases List.mem_cons.mp he with rfl | he
    · exact dropB_mono _ _ (foldl_dedupStep_subState as (dedupStep st e)) e
        (dedupStep_absorbs st e)
    · exact ih (dedupStep st a) e he

theorem foldl_dedupStep_absorbed (l : List EventRecord)
    (st : List String × List String × List EventRecord)
    (h : ∀ e ∈ l, absorbs st e) : l.foldl dedupStep st = st := by
  induction l with
  | nil => rfl
  | cons a as ih =>
    have ha' : dropB st.1 st.2.1 a = true := h a (by simp)
    have ha : dedupStep st a = st := by
      unfold dedupStep
      rw [if_pos ha']
    rw [List.foldl_cons, ha]
    exact ih (fun e he => h e (List.mem_cons_of_mem a he))

/-- Replaying the same candidate sequence through the merge loop adds
nothing: every record of the replay is rejected by the state the first pass
built. -/
theorem mergeDedup_append_self (l : List EventRecord) :
    mergeDedup (l ++ l) = mergeDedup l := by
  unfold mergeDedup
  rw [List.foldl_append]
  rw [foldl_dedupStep_absorbed l _ (fun e he => foldl_dedupStep_absorbs l _ e he)]

/-! ## Path lemmas for `qualityRank` -/

theorem mem_take_sort_filter (p : EventRecord → Bool) (u : List EventRecord)
    (lim : Nat) (e : EventRecord)
    (h : e ∈ (sortByQualityDesc (u.filter p)).take lim) : p e = true ∧ e ∈ u := by
  have h1 : e ∈ sortByQualityDesc (u.filter p) :=
    (List.take_sublist lim _).subset h
  have h2 : e ∈ u.filter p := (sortByQualityDesc_perm _).subset h1
  exact ⟨List.of_mem_filter h2, List.mem_of_mem_filter h2⟩

theorem qualityRank_strict (u : List EventRecord) (lim : Nat)
    (h : u.filter strictKeepB ≠ []) :
    qualityRank u lim = (sortByQualityDesc (u.filter strictKeepB)).take lim := by
  unfold qualityRank
  dsimp only
  have hlen : ¬ (u.filter strictKeepB).length = 0 := by
    simpa [List.length_eq_zero] using h
  rw [if_neg (by simp [hlen])]
  split
  · rfl
  · rename_i hf
    simp only [not_lt, Nat.le_zero, List.length_eq_zero] at hf
    simp [hf]

theorem qualityRank_relaxed (u : List EventRecord) (lim : Nat)
    (h : u.filter strictKeepB = []) :
    qualityRank u lim = (sortByQualityDesc (u.filter lenientKeepB)).take lim := by
  unfold qualityRank
  dsimp only
  rcases u with _ | ⟨a, u'⟩
  · simp [sortByQualityDesc]
  · rw [if_pos (by simp [h])]
    split
    · rfl
    · rename_i hlen
      simp only [not_lt, Nat.le_zero, List.length_eq_zero] at hlen
      rw [hlen, h]
      simp [sortByQualityDesc]

theorem qualityRank_mem (u : List EventRecord) (lim : Nat) (e : EventRecord)
    (h : e ∈ qualityRank u lim) :
    e ∈ u ∧ ((u.filter strictKeepB ≠ [] ∧ strictKeepB e = true)
      ∨ (u.filter strictKeepB = [] ∧ lenientKeepB e = true)) := by
  by_cases hs : u.filter strictKeepB = []
  · rw [qualityRank_relaxed u lim hs] at h
    have := mem_take_sort_filter lenientKeepB u lim e h
    exact ⟨this.2, Or.inr ⟨hs, this.1⟩⟩
  · rw [qualityRank_strict u lim hs] at h
    have := mem_take_sort_filter strictKeepB u lim e h
    exact ⟨this.2, Or.inl ⟨hs, this.1⟩⟩

/-! ## Claims C8, C9, C10 -/

/-- C8: a failing vector search is caught locally and is indistinguishable
from a vector search returning zero results; the keyword strategy's behaviour
and the final output are unaffected, and nothing propagates. -/
theorem C8_vector_failure_isolated (v : List Int) (qt : String) (lim : Nat)
    (kwT kwP : List EventRecord) (kwTh : Bool) :
    (retrieveRelevantEvents (some v) qt lim
        { vector := .error (), kwTokens := kwT, kwPhrase := kwP, kwThrows := kwTh }).1
      = (retrieveRelevantEvents (some v) qt lim
          { vector := .ok [], kwTokens := kwT, kwPhrase := kwP, kwThrows := kwTh }).1
    ∧ (retrieveRelevantEvents (some v) qt lim
        { vector := .error (), kwTokens := kwT, kwPhrase := kwP, kwThrows := kwTh }).2.keywordTokensRan
      = (retrieveRelevantEvents (some v) qt lim
          { vector := .ok [], kwTokens := kwT, kwPhrase := kwP, kwThrows := kwTh }).2.keywordTokensRan
    ∧ (retrieveRelevantEvents (some v) qt lim
        { vector := .error (), kwTokens := kwT, kwPhrase := kwP, kwThrows := kwTh }).2.keywordPhraseRan
      = (retrieveRelevantEvents (some v) qt lim
          { vector := .ok [], kwTokens := kwT, kwPhrase := kwP, kwThrows := kwTh }).2.keywordPhraseRan
    ∧ (retrieveRelevantEvents (some v) qt lim
        { vector := .error (), kwTokens := kwT, kwPhrase := kwP, kwThrows := kwTh }).2.vectorFailed
      = true := by
  unfold retrieveRelevantEvents
  dsimp only
  split_ifs <;> simp_all

/-- Witness for C8 at a concrete query and store behaviour. -/
theorem C8_vector_failure_isolated_w :
    (retrieveRelevantEvents (some [1]) "music festival" 20
        { vector := .error (), kwTokens := [], kwPhrase := [], kwThrows := false }).1
      = (retrieveRelevantEvents (some [1]) "music festival" 20
          { vector := .ok [], kwTokens := [], kwPhrase := [], kwThrows := false }).1 :=
  (C8_vector_failure_isolated [1] "music festival" 20 [] [] false).1

/-- C9: pushing a candidate sequence concatenated with a duplicate of itself
through the merge, quality-filter and rank steps of `retrieveRelevantEvents`
gives the same ranked output as pushing it through once. -/
theorem C9_merge_idempotent (l : List EventRecord) (lim : Nat) :
    qualityRank (mergeDedup (l ++ l)) lim = qualityRank (mergeDedup l) lim := by
  rw [mergeDedup_append_self]

/-- Witness for C9 on a concrete duplicated candidate set. -/
theorem C9_merge_idempotent_w :
    qualityRank (mergeDedup
      ([⟨"a", some { event_name := some "Holi Fest", event_date := some "Mar 25" },
          none, none⟩]
        ++ [⟨"a", some { event_name := some "Holi Fest", event_date := some "Mar 25" },
          none, none⟩])) 20
      = qualityRank (mergeDedup
          [⟨"a", some { event_name := some "Holi Fest", event_date := some "Mar 25" },
            none, none⟩]) 20 :=
  C9_merge_idempotent _ 20

/-! ### C10: every retrieved record keeps a non-empty trimmed name -/

theorem jsCharLower_ws (c : Char) (h : jsIsWs c = true) : jsCharLower c = c := by
  unfold jsIsWs at h
  simp only [Bool.or_eq_true, decide_eq_true_eq] at h
  rcases h with ((((rfl | rfl) | rfl) | rfl) | rfl) | rfl <;> decide

theorem trimL_eq_nil_all_ws (l : List Char) (h : trimL l = []) :
    ∀ c ∈ l, jsIsWs c = true := by
  unfold trimL at h
  rw [List.reverse_eq_nil_iff] at h
  have h2 : ∀ c ∈ (l.dropWhile jsIsWs).reverse, jsIsWs c = true :=
    List.dropWhile_eq_nil_iff.mp h
  have h3 : l.dropWhile jsIsWs = [] := by
    rcases hd : l.dropWhile jsIsWs with _ | ⟨a, as⟩
    · rfl
    · exfalso
      have ha : jsIsWs a = true := by
        refine h2 a ?_
        rw [hd]
        simp
      have := List.head?_dropWhile_not jsIsWs l
      rw [hd] at this
      simp_all
  intro c hc
  have hsplit : l = l.takeWhile jsIsWs ++ l.dropWhile jsIsWs :=
    (List.takeWhile_append_dropWhile jsIsWs l).symm
  rw [h3, List.append_nil] at hsplit
  rw [hsplit] at hc
  exact List.mem_takeWhile_imp hc

theorem string_mk_eq_empty (l : List Char) (h : String.mk l = "") : l = [] := by
  have := congrArg String.data h
  simpa using this

theorem jsTrim_nonempty_of_effLen (s : String)
    (h : 3 ≤ (jsTrim (jsToLower s)).data.length) : jsTrim s ≠ "" := by
  intro hcon
  have hnil : trimL s.data = [] := string_mk_eq_empty _ hcon
  have hws : ∀ c ∈ s.data, jsIsWs c = true := trimL_eq_nil_all_ws _ hnil
  have hmap : jsLowerL s.data = s.data := by
    unfold jsLowerL
    have : List.map jsCharLower s.data = List.map id s.data :=
      List.map_congr_left (fun c hc => jsCharLower_ws c (hws c hc))
    rw [this, List.map_id]
  have hdata : (jsTrim (jsToLower s)).data = [] := by
    unfold jsTrim jsToLower
    rw [show (String.mk (jsLowerL s.data)).data = jsLowerL s.data from rfl, hmap, hnil]
  rw [hdata] at h
  simp at h

theorem noiseNameB_false_len (e : EventRecord) (h : noiseNameB e = false) :
    3 ≤ (effName e).data.length := by
  unfold noiseNameB at h
  rcases Bool.and_eq_false_iff.mp h with h | h
  · have hlt : ¬ (jsLen (effName e) ≤ 3) := by simpa using h
    unfold jsLen at hlt
    omega
  · have hw : isThreeLetterWord (effName e) = true := by simpa using h
    unfold isThreeLetterWord at hw
    simp only [Bool.and_eq_true, decide_eq_true_eq] at hw
    exact hw.1

/-- A record lacking a usable name but complete in every other field: its
quality score is 70, yet the merge loop eliminates it. -/
def noNameRec : EventRecord :=
  ⟨"noname",
   some { event_date := some "March 25", location := some "Uppal",
          event_time := some "10am", organizer := some "Org",
          website := some "w.example" },
   none, none⟩

/-- C10: every record in `retrieveRelevantEvents`' output has a non-empty
event name after trimming; a record whose name trims to nothing is dropped by
the dedup noise check even when its score would clear the quality floor. -/
theorem C10_output_names_nonempty :
    (∀ (emb : Option (List Int)) (qt : String) (lim : Nat) (env : RetrEnv)
        (e : EventRecord), e ∈ (retrieveRelevantEvents emb qt lim env).1 →
        jsTrim (rawEventName e) ≠ "")
      ∧ mergeDedup [noNameRec] = []
      ∧ 50 ≤ calculateEventQuality noNameRec := by
  refine ⟨?_, by decide, by decide⟩
  intro emb qt lim env e he
  unfold retrieveRelevantEvents at he
  dsimp only at he
  split at he
  · simp at he
  · have h1 : e ∈ qualityRank (mergeDedup _) lim := he
    have h2 := (qualityRank_mem _ lim e h1).1
    have h3 := mergeDedup_mem_not_noise _ ([], [], []) e h2
    have h4 : noiseNameB e = false := by
      rcases h3 with h3 | h3
      · simp at h3
      · exact h3
    exact jsTrim_nonempty_of_effLen _ (noiseNameB_false_len e h4)

/-- A fully usable concrete record. -/
def goodRec : EventRecord :=
  ⟨"a", some { event_name := some "Holi Fest", event_date := some "Mar 25" }, none, none⟩

/-- A store behaviour whose keyword strategy returns `goodRec`. -/
def goodRetrEnv : RetrEnv :=
  { vector := .ok [], kwTokens := [goodRec], kwPhrase := [], kwThrows := false }

/-- Witness for C10 on a concrete retrieval whose output is non-empty. -/
theorem C10_output_names_nonempty_w : jsTrim (rawEventName goodRec) ≠ "" :=
  C10_output_names_nonempty.1 none "music festival" 20 goodRetrEnv goodRec (by decide)

/-! ## Claim C1: the quality scorer -/

/-- The claim's own placeholder notion, word for word: the literal marker
`"N/A"` or an empty/whitespace-only string (an absent field is placeholder). -/
def specPlaceholderB : Option String → Bool
  | none => true
  | some s => s = "N/A" || jsTrim s = ""

/-- The name condition the scorer actually checks: the trimmed name is
non-empty and differs from `'N/A'`. -/
def nameOKB (d : EventDetails) : Bool :=
  jsTrim (d.event_name.getD "") ≠ "" && jsTrim (d.event_name.getD "") ≠ "N/A"

/-- The short-name case of the scorer: trimmed name of length ≤ 3 that is
not a 2-3 letter uppercase acronym. -/
def shortNameB (d : EventDetails) : Bool :=
  jsLen (jsTrim (d.event_name.getD "")) ≤ 3 && !acr23 (jsTrim (d.event_name.getD ""))

/-- A record whose `event_name` is `" N/A "`: non-placeholder under the
claim's literal definition (neither the exact string `"N/A"` nor
whitespace-only), with every other detail field present and meaningful. -/
def paddedNARec : EventRecord :=
  ⟨"padded",
   some { event_name := some " N/A ", event_date := some "x", location := some "x",
          event_time := some "x", organizer := some "x", website := some "x" },
   none, none⟩

/-- Counterexample to C1 as stated: all six detail fields of `paddedNARec`
are present and non-placeholder under the claim's definition, yet the scorer
returns 70 — not 100, nor 100 minus a 20- or 50-point short-name penalty —
because the code compares the *trimmed* name against `'N/A'`. -/
theorem C1_counterexample :
    specPlaceholderB (paddedNARec.event_details.getD emptyDetails).event_name = false
      ∧ specPlaceholderB (paddedNARec.event_details.getD emptyDetails).event_date = false
      ∧ specPlaceholderB (paddedNARec.event_details.getD emptyDetails).location = false
      ∧ specPlaceholderB (paddedNARec.event_details.getD emptyDetails).event_time = false
      ∧ specPlaceholderB (paddedNARec.event_details.getD emptyDetails).organizer = false
      ∧ specPlaceholderB (paddedNARec.event_details.getD emptyDetails).website = false
      ∧ calculateEventQuality paddedNARec = 70
      ∧ (70 : Int) ≠ 100 ∧ (70 : Int) ≠ 100 - 20 ∧ (70 : Int) ≠ 100 - 50 := by
  decide

theorem acr23_acr24 (s : String) (h : acr23 s = true) : acr24 s = true := by
  unfold acr23 at h
  unfold acr24
  simp only [Bool.and_eq_true, Bool.or_eq_true, decide_eq_true_eq] at h ⊢
  refine ⟨⟨?_, ?_⟩, h.2⟩ <;> rcases h.1 with h1 | h1 <;> omega

theorem acr24_short_acr23 (s : String) (h : acr24 s = true) (hlen : s.data.length ≤ 3) :
    acr23 s = true := by
  unfold acr24 at h
  unfold acr23
  simp only [Bool.and_eq_true, Bool.or_eq_true, decide_eq_true_eq] at h ⊢
  exact ⟨by omega, h.2⟩

theorem jsLen_pos_of_ne (s : String) (h : s ≠ "") : 0 < jsLen s := by
  unfold jsLen
  rcases hd : s.data with _ | _
  · exfalso
    apply h
    have h2 : s = String.mk s.data := rfl
    rw [h2, hd]
  · simp

theorem fieldOKB_of_specPlaceholder (v : Option String) (h : specPlaceholderB v = true) :
    fieldOKB v = false := by
  rcases v with _ | s
  · rfl
  · unfold specPlaceholderB at h
    unfold fieldOKB
    simp only [Bool.or_eq_true, decide_eq_true_eq] at h
    rcases h with rfl | h
    · simp
    · simp [h]

theorem nameGuard_false (v : Option String) (h : specPlaceholderB v = true) :
    (jsTrim (v.getD "") ≠ "" && jsTrim (v.getD "") ≠ "N/A"
      && decide (jsLen (jsTrim (v.getD "")) > 0)) = false := by
  rcases v with _ | s
  · decide
  · simp only [specPlaceholderB, Bool.or_eq_true, decide_eq_true_eq] at h
    rcases h with rfl | h
    · decide
    · simp [h]

/-- C1, amended: with the name's placeholder test applied to the *trimmed*
name (as the code does) and the other five fields tested as the code tests
them, a fully present record scores `100` minus `50` exactly when the name is
short and not an acronym; a record whose six fields are all placeholder
scores 0; and every score lies in `[0, 100]`. -/
theorem C1_quality_amended :
    (∀ e : EventRecord,
        nameOKB (e.event_details.getD emptyDetails) = true →
        fieldOKB (e.event_details.getD emptyDetails).event_date = true →
        fieldOKB (e.event_details.getD emptyDetails).location = true →
        fieldOKB (e.event_details.getD emptyDetails).event_time = true →
        fieldOKB (e.event_details.getD emptyDetails).organizer = true →
        fieldOKB (e.event_details.getD emptyDetails).website = true →
        calculateEventQuality e
          = 100 - (if shortNameB (e.event_details.getD emptyDetails) then 50 else 0))
      ∧ (∀ e : EventRecord,
        specPlaceholderB (e.event_details.getD emptyDetails).event_name = true →
        specPlaceholderB (e.event_details.getD emptyDetails).event_date = true →
        specPlaceholderB (e.event_details.getD emptyDetails).location = true →
        specPlaceholderB (e.event_details.getD emptyDetails).event_time = true →
        specPlaceholderB (e.event_details.getD emptyDetails).organizer = true →
        specPlaceholderB (e.event_details.getD emptyDetails).website = true →
        calculateEventQuality e = 0)
      ∧ (∀ e : EventRecord,
        0 ≤ calculateEventQuality e ∧ calculateEventQuality e ≤ 100) := by
  refine ⟨?_, ?_, ?_⟩
  · intro e hn hd hl ht ho hw
    unfold nameOKB at hn
    simp only [Bool.and_eq_true, decide_eq_true_eq] at hn
    unfold calculateEventQuality
    dsimp only
    rw [if_pos (by simp [hn.1, hn.2, jsLen_pos_of_ne _ hn.1]), if_pos hd, if_pos hl,
      if_pos ht, if_pos ho, if_pos hw]
    by_cases hs : shortNameB (e.event_details.getD emptyDetails) = true
    · rw [if_pos hs]
      unfold shortNameB at hs
      simp only [Bool.and_eq_true, Bool.not_eq_true', decide_eq_true_eq] at hs
      rw [if_pos (by simp [hs.1, hs.2]), if_neg]
      · norm_num
      · simp only [Bool.or_eq_true, decide_eq_true_eq, not_or]
        constructor
        · unfold jsLen at hs ⊢
          omega
        · intro h24
          have := acr24_short_acr23 _ h24 (by unfold jsLen at hs; simpa using hs.1)
          simp [this] at hs
    · rw [if_neg hs]
      unfold shortNameB at hs
      simp only [Bool.and_eq_true, Bool.not_eq_true', decide_eq_true_eq, not_and] at hs
      rw [if_neg, if_pos]
      · norm_num
      · simp only [Bool.or_eq_true, decide_eq_true_eq]
        by_cases h3 : jsLen (jsTrim ((e.event_details.getD emptyDetails).event_name.getD "")) ≤ 3
        · right
          exact acr23_acr24 _ (by simpa using hs h3)
        · left
          unfold jsLen at h3 ⊢
          omega
      · simp only [Bool.and_eq_true, Bool.not_eq_true', decide_eq_true_eq, not_and]
        intro h3
        simpa using hs h3
  · intro e hn hd hl ht ho hw
    unfold calculateEventQuality
    dsimp only
    rw [nameGuard_false _ hn, fieldOKB_of_specPlaceholder _ hd,
      fieldOKB_of_specPlaceholder _ hl, fieldOKB_of_specPlaceholder _ ht,
      fieldOKB_of_specPlaceholder _ ho, fieldOKB_of_specPlaceholder _ hw]
    simp
  · intro e
    unfold calculateEventQuality
    dsimp only
    refine ⟨le_max_left _ _, max_le (by norm_num) ?_⟩
    repeat' split
    all_goals norm_num

/-- All six detail fields present and meaningful. -/
def fullDetails : EventDetails :=
  { event_name := some "Holi Fest", event_date := some "Mar 25",
    location := some "Uppal", event_time := some "10am",
    organizer := some "Org", website := some "w.example" }

def fullRec : EventRecord := ⟨"full", some fullDetails, none, none⟩

def blankRec : EventRecord := ⟨"blank", some { event_name := some "N/A" }, none, none⟩

/-- Witness for C1 at a complete record (score 100) and an all-placeholder
record (score 0). -/
theorem C1_quality_amended_w :
    calculateEventQuality fullRec = 100 - (if shortNameB fullDetails then 50 else 0)
      ∧ calculateEventQuality blankRec = 0 :=
  ⟨C1_quality_amended.1 fullRec (by decide) (by decide) (by decide) (by decide)
      (by decide) (by decide),
   C1_quality_amended.2.1 blankRec (by decide) (by decide) (by decide) (by decide)
      (by decide) (by decide)⟩

/-! ## Claim C2: the merge/dedup step -/

def theNoiseRec : EventRecord := ⟨"the-1", some { event_name := some "THE" }, none, none⟩

def marksRec1 : EventRecord := ⟨"marks-1", some { event_name := some "####" }, none, none⟩

def marksRec2 : EventRecord := ⟨"marks-2", some { event_name := some "####" }, none, none⟩

/-- Counterexample to C2 as stated: the merge loop lowercases the name before
the noise test `/^[a-z]{3,}$/`, so `"THE"` (three letters) survives rather
than being dropped; and two records with identical but *empty* normalized
names (`"####"`) and different ids both survive, so "of two records with
identical normalized names only the first survives" fails without a
non-empty-name proviso. -/
theorem C2_counterexample :
    mergeDedup [theNoiseRec] = [theNoiseRec]
      ∧ noiseNameB theNoiseRec = false
      ∧ mergeDedup [marksRec1, marksRec2] = [marksRec1, marksRec2]
      ∧ marksRec1.idStr ≠ marksRec2.idStr
      ∧ normalizeName (effName marksRec1) = normalizeName (effName marksRec2) := by
  decide

/-- C2, amended: a record is dropped by the merge loop exactly when its id
was already kept, or its lowercased trimmed name has length ≤ 3 without being
exactly three Latin letters (so three-letter names such as `"THE"` survive),
or its normalized name is non-empty and was already kept; of two records with
identical non-empty normalized names and different ids, only the first
survives. -/
theorem C2_merge_amended :
    (∀ (st : List String × List String × List EventRecord) (e : EventRecord),
        ((dedupStep st e).2.2 = st.2.2 ↔ dropB st.1 st.2.1 e = true)
          ∧ (dropB st.1 st.2.1 e = false → (dedupStep st e).2.2 = st.2.2 ++ [e]))
      ∧ (∀ e1 e2 : EventRecord,
        dropB [] [] e1 = false → e1.idStr ≠ e2.idStr →
        normalizeName (effName e2) = normalizeName (effName e1) →
        normalizeName (effName e1) ≠ "" →
        mergeDedup [e1, e2] = [e1])
      ∧ (∀ e : EventRecord, noiseNameB e = false → mergeDedup [e] = [e]) := by
  refine ⟨?_, ?_, ?_⟩
  · intro st e
    constructor
    · rw [dedupStep_acc]
      constructor
      · intro h
        by_contra hd
        rw [if_neg (by simpa using hd)] at h
        have := congrArg List.length h
        simp at this
      · intro h
        rw [if_pos h]
    · intro h
      rw [dedupStep_acc, if_neg (by simp [h])]
  · intro e1 e2 h1 hid hnm hne
    unfold mergeDedup
    simp only [List.foldl_cons, List.foldl_nil]
    have hstep1 : dedupStep ([], [], []) e1
        = ([e1.idStr], [normalizeName (effName e1)], [e1]) := by
      unfold dedupStep
      rw [if_neg (by simp [h1])]
      simp [hne]
    rw [hstep1]
    have hdrop2 : dropB [e1.idStr] [normalizeName (effName e1)] e2 = true := by
      unfold dropB
      rw [hnm]
      simp [hne]
    unfold dedupStep
    rw [if_pos hdrop2]
  · intro e h
    unfold mergeDedup
    simp only [List.foldl_cons, List.foldl_nil]
    unfold dedupStep
    rw [if_neg (by simp [dropB, h])]
    simp

def nameDupRec1 : EventRecord := ⟨"dup-1", some { event_name := some "Holi Fest" }, none, none⟩

def nameDupRec2 : EventRecord := ⟨"dup-2", some { event_name := some "HOLI FEST!" }, none, none⟩

/-- Witness for C2 at two concrete records sharing a normalized name. -/
theorem C2_merge_amended_w : mergeDedup [nameDupRec1, nameDupRec2] = [nameDupRec1] :=
  C2_merge_amended.2.1 nameDupRec1 nameDupRec2 (by decide) (by decide) (by decide)
    (by decide)

/-! ## Claim C3: quality filtering, one-shot relaxation, stable ranking -/

theorem strictKeepB_quality (e : EventRecord) (h : strictKeepB e = true) :
    50 ≤ calculateEventQuality e := by
  unfold strictKeepB at h
  simp only [Bool.and_eq_true, decide_eq_true_eq] at h
  exact h.2

theorem lenientKeepB_facts (e : EventRecord) (h : lenientKeepB e = true) :
    40 ≤ calculateEventQuality e ∧ 2 < jsLen (jsTrim (rawEventName e)) := by
  unfold lenientKeepB at h
  simp only [Bool.and_eq_true, Bool.not_eq_true', decide_eq_false_iff_not,
    decide_eq_true_eq, not_le] at h
  exact ⟨h.2, h.1⟩

/-- C3: the strict pass keeps only records of quality ≥ 50; when it keeps
nothing but dedup produced candidates, exactly one relaxed pass runs with
floor 40 and a length-≤-2 noise test; the survivors are sorted by quality
descending (stable: per quality class the input order is preserved) and
truncated to the limit; and when nothing survives the result is empty. -/
theorem C3_quality_rank (u : List EventRecord) (lim : Nat) :
    (u.filter strictKeepB ≠ [] →
      qualityRank u lim = (sortByQualityDesc (u.filter strictKeepB)).take lim
        ∧ ∀ e ∈ qualityRank u lim, 50 ≤ calculateEventQuality e)
    ∧ (u.filter strictKeepB = [] →
      qualityRank u lim = (sortByQualityDesc (u.filter lenientKeepB)).take lim
        ∧ ∀ e ∈ qualityRank u lim,
            40 ≤ calculateEventQuality e ∧ 2 < jsLen (jsTrim (rawEventName e)))
    ∧ (qualityRank u lim).Pairwise
        (fun a b => calculateEventQuality b ≤ calculateEventQuality a)
    ∧ (qualityRank u lim).length ≤ lim
    ∧ (u.filter strictKeepB = [] → u.filter lenientKeepB = [] →
        qualityRank u lim = [])
    ∧ (sortByQualityDesc (u.filter strictKeepB)).Perm (u.filter strictKeepB)
    ∧ (sortByQualityDesc (u.filter lenientKeepB)).Perm (u.filter lenientKeepB)
    ∧ (∀ k : Int,
        (sortByQualityDesc (u.filter strictKeepB)).filter
            (fun e => calculateEventQuality e == k)
          = (u.filter strictKeepB).filter (fun e => calculateEventQuality e == k))
    ∧ (∀ k : Int,
        (sortByQualityDesc (u.filter lenientKeepB)).filter
            (fun e => calculateEventQuality e == k)
          = (u.filter lenientKeepB).filter (fun e => calculateEventQuality e == k)) := by
  refine ⟨?_, ?_, ?_, ?_, ?_, sortByQualityDesc_perm _, sortByQualityDesc_perm _,
    fun k => sortByQualityDesc_filter_stable _ k,
    fun k => sortByQualityDesc_filter_stable _ k⟩
  · intro hs
    refine ⟨qualityRank_strict u lim hs, ?_⟩
    intro e he
    rcases (qualityRank_mem u lim e he).2 with h | h
    · exact strictKeepB_quality e h.2
    · exact absurd h.1 hs
  · intro hs
    refine ⟨qualityRank_relaxed u lim hs, ?_⟩
    intro e he
    rcases (qualityRank_mem u lim e he).2 with h | h
    · exact absurd hs h.1
    · exact lenientKeepB_facts e h.2
  · by_cases hs : u.filter strictKeepB = []
    · rw [qualityRank_relaxed u lim hs]
      exact (sortByQualityDesc_pairwise _).sublist (List.take_sublist _ _)
    · rw [qualityRank_strict u lim hs]
      exact (sortByQualityDesc_pairwise _).sublist (List.take_sublist _ _)
  · by_cases hs : u.filter strictKeepB = []
    · rw [qualityRank_relaxed u lim hs]
      exact List.length_take_le _ _
    · rw [qualityRank_strict u lim hs]
      exact List.length_take_le _ _
  · intro hs hl
    rw [qualityRank_relaxed u lim hs, hl]
    simp [sortByQualityDesc]

/-- Witness for C3 at a concrete candidate list with a strict-pass survivor. -/
theorem C3_quality_rank_w :
    qualityRank [goodRec] 20
      = (sortByQualityDesc ([goodRec].filter strictKeepB)).take 20 :=
  ((C3_quality_rank [goodRec] 20).1 (by decide)).1

/-! ## Claim C6: the history answer extractor scenario -/

/-- The spec's extractor scenario: a user turn followed by the assistant turn
"The event is happening at Elements Cafe tonight.". -/
def elementsHistory : List Turn :=
  [⟨Role.user, "any event tonight?"⟩,
   ⟨Role.ai, "The event is happening at Elements Cafe tonight."⟩]

/-- C6: on the follow-up "where is it?" against a history containing the
assistant turn about Elements Cafe, the extractor returns a sentence
containing "Elements Cafe"; and the whole orchestrator, with generation
unavailable, returns that sentence with empty sources. -/
theorem C6_history_extractor :
    extractAnswerFromHistory "where is it?" elementsHistory
        = some "The event is happening at Elements Cafe tonight."
      ∧ includesB "The event is happening at Elements Cafe tonight." "Elements Cafe"
        = true
      ∧ (getChatResponse "where is it?" elementsHistory (some "Dana")
          { chat := .failure }).1
        = .ok { answer := "The event is happening at Elements Cafe tonight.",
                sources := [] } := by
  refine ⟨by decide, by decide, ?_⟩
  rfl

/-! ## Orchestrator trace and result lemmas (claims C4, C5, C7) -/

theorem outerNet_trace (q : String) (evs : List EventRecord) (env : Env) (tr : Trace) :
    (outerNet q evs env tr).2.embedCalled = tr.embedCalled
      ∧ (outerNet q evs env tr).2.retrieveCalled = tr.retrieveCalled := by
  unfold outerNet
  split
  · exact ⟨rfl, rfl⟩
  · unfold performStandardSearch
    rcases env.stdSearch with e | l <;> exact ⟨rfl, rfl⟩

theorem afterRetrieval_trace (q : String) (h : List Turn) (fu : Bool)
    (evs : List EventRecord) (env : Env) (tr : Trace) :
    (afterRetrieval q h fu evs env tr).2.embedCalled = tr.embedCalled
      ∧ (afterRetrieval q h fu evs env tr).2.retrieveCalled = tr.retrieveCalled := by
  unfold afterRetrieval
  split
  · exact outerNet_trace q evs env tr
  · rcases env.chat with t | _ | _ <;> exact ⟨rfl, rfl⟩

/-- Counterexample to C4 as stated: "where is it?" is classified as a
follow-up even with an empty history, yet the orchestrator still performs
retrieval (both the embedding service and the retriever run), because the
skip branch additionally requires a non-empty history. -/
theorem C4_counterexample :
    isFollowUpQuestion "where is it?" [] = true
      ∧ (getChatResponse "where is it?" [] none {}).2.embedCalled = true
      ∧ (getChatResponse "where is it?" [] none {}).2.retrieveCalled = true := by
  decide

/-- C4, amended: whenever the classifier marks the question as a follow-up
*and the history is non-empty*, the turn never invokes the embedding service
or the retriever, whatever else the environment does. -/
theorem C4_followup_skips_retrieval (question : String) (history : List Turn)
    (user : Option String) (env : Env)
    (hfu : isFollowUpQuestion question history = true) (hne : history ≠ []) :
    (getChatResponse question history user env).2.embedCalled = false
      ∧ (getChatResponse question history user env).2.retrieveCalled = false := by
  unfold getChatResponse
  split
  · exact ⟨rfl, rfl⟩
  · split
    · exact ⟨rfl, rfl⟩
    · split
      · rename_i e heq
        have h1 := outerNet_trace question [] env {}
        exact ⟨h1.1, h1.2⟩
      · exact ⟨rfl, rfl⟩
      · rename_i heq
        rw [if_pos (by simp [hfu, List.length_pos.mpr hne])]
        have h1 := afterRetrieval_trace question history
          (isFollowUpQuestion question history) [] env {}
        exact ⟨h1.1, h1.2⟩

/-- Witness for C4 at a concrete follow-up with non-empty history. -/
theorem C4_followup_skips_retrieval_w :
    (getChatResponse "where is it?" [⟨Role.user, "hi there"⟩] none {}).2.embedCalled
      = false :=
  (C4_followup_skips_retrieval "where is it?" [⟨Role.user, "hi there"⟩] none {}
    (by decide) (by decide)).1

theorem outerNet_error (q : String) (evs : List EventRecord) (env : Env) (tr : Trace)
    (h : (outerNet q evs env tr).1 = .error ()) : env.stdSearch = .error () := by
  unfold outerNet at h
  split at h
  · simp at h
  · unfold performStandardSearch at h
    rcases hs : env.stdSearch with e | l
    · cases e
      rfl
    · rw [hs] at h
      simp at h

theorem afterRetrieval_error (q : String) (hst : List Turn) (fu : Bool)
    (evs : List EventRecord) (env : Env) (tr : Trace)
    (h : (afterRetrieval q hst fu evs env tr).1 = .error ()) :
    env.stdSearch = .error () := by
  unfold afterRetrieval at h
  split at h
  · exact outerNet_error _ _ _ _ h
  · rcases hc : env.chat with t | _ | _ <;> rw [hc] at h <;> simp at h

/-- Counterexample to C5 as stated: with the store down, the question
"any events" throws inside the list-all-events intent, the outer net
degrades to the standard search, the standard search itself throws — and
that failure reaches the caller raw. -/
theorem C5_counterexample :
    (getChatResponse "any events" [] none
        { dbList := .error (), stdSearch := .error () }).1.toOption = none := by
  decide

/-- C5, amended: the orchestrator catches unexpected errors once at its outer
boundary; with sources already fetched it returns them with the generic
found-message, otherwise it delegates to the keyword-only standard search —
and the only failure that can reach the caller is a failure of that standard
search itself (which rethrows). -/
theorem C5_failure_net_amended :
    (∀ (question : String) (history : List Turn) (user : Option String) (env : Env),
        (getChatResponse question history user env).1 = .error () →
        env.stdSearch = .error ())
      ∧ (∀ (q : String) (evs : List EventRecord) (env : Env) (tr : Trace),
        evs ≠ [] →
        (outerNet q evs env tr).1
          = .ok { answer := foundMsg evs.length, sources := evs })
      ∧ (∀ (q : String) (env : Env), env.stdSearch = .error () →
        performStandardSearch q env = .error ()) := by
  refine ⟨?_, ?_, ?_⟩
  · intro question history user env herr
    unfold getChatResponse at herr
    split at herr
    · simp at herr
    · split at herr
      · simp at herr
      · split at herr
        · exact outerNet_error _ _ _ _ herr
        · simp at herr
        · dsimp only at herr
          split at herr
          · exact afterRetrieval_error _ _ _ _ _ _ herr
          · exact afterRetrieval_error _ _ _ _ _ _ herr
  · intro q evs env tr hne
    unfold outerNet
    rw [if_pos (by simpa [List.length_pos] using hne)]
  · intro q env hs
    unfold performStandardSearch
    rw [hs]

/-- Witness for C5: a concrete run whose raw failure implies the standard
search failed. -/
theorem C5_failure_net_amended_w :
    (Env.stdSearch { dbList := .error (), stdSearch := .error () }) = .error () :=
  C5_failure_net_amended.1 "any events" [] none
    { dbList := .error (), stdSearch := .error () } (by decide)

/-! ## Claim C7: follow-up turns and sources -/

theorem chatFallback_followup_sources (q : String) (hst : List Turn)
    (evs : List EventRecord) : (chatFallback true q hst evs).sources = [] := by
  unfold chatFallback
  rcases hx : extractAnswerFromHistory q hst with _ | a <;> simp [hx]

theorem afterRetrieval_followup_sources (q : String) (hst : List Turn)
    (evs : List EventRecord) (env : Env) (tr : Trace) (r : ChatResult)
    (hctx : env.ctxThrows = false)
    (h : (afterRetrieval q hst true evs env tr).1 = .ok r) : r.sources = [] := by
  unfold afterRetrieval at h
  rw [if_neg (by simp [hctx])] at h
  rcases hc : env.chat with t | _ | _ <;> rw [hc] at h <;> simp at h <;>
    rw [← h] <;> simp [chatFallback_followup_sources]

def intentSourceRec : EventRecord :=
  ⟨"s", some { event_name := some "Holi Fest" }, none, none⟩

/-- Counterexample to C7 as stated: "show events about that" is classified as
a follow-up (the history mentions an event), but it also matches the
list-all-events intent, which answers *before* the classifier runs and
attaches the store's records as sources. -/
theorem C7_counterexample :
    isFollowUpQuestion "show events about that"
        [⟨Role.ai, "There is an event at the stadium"⟩] = true
      ∧ ((getChatResponse "show events about that"
          [⟨Role.ai, "There is an event at the stadium"⟩] none
          { dbList := .ok [intentSourceRec] }).1.toOption.map ChatResult.sources)
        = some [intentSourceRec]
      ∧ [intentSourceRec] ≠ ([] : List EventRecord) := by
  refine ⟨by decide, by decide, by decide⟩

/-- C7, amended: when the classifier marks the turn as a follow-up, no fixed
intent matches, and no unexpected error fires, every result the orchestrator
returns — generation success and the whole generation-failure fallback chain —
carries empty sources; an intent match bypasses the classifier, and the outer
failure net degrades to the standard search instead. -/
theorem C7_followup_sources_amended (question : String) (history : List Turn)
    (user : Option String) (env : Env) (r : ChatResult)
    (hfu : isFollowUpQuestion question history = true)
    (hint : detectIntent question env = .ok none)
    (hctx : env.ctxThrows = false)
    (hres : (getChatResponse question history user env).1 = .ok r) :
    r.sources = [] := by
  unfold getChatResponse at hres
  split at hres
  · simp at hres
    rw [← hres]
  · split at hres
    · simp at hres
      rw [← hres]
    · split at hres
      · rename_i e heq
        rw [hint] at heq
        simp at heq
      · rename_i ir heq
        rw [hint] at heq
        simp at heq
      · rename_i heq
        rw [hfu] at hres
        dsimp only at hres
        split at hres
        · exact afterRetrieval_followup_sources _ _ _ _ _ _ hctx hres
        · exact afterRetrieval_followup_sources _ _ _ _ _ _ hctx hres

/-- Witness for C7 at a concrete follow-up turn with generation degraded. -/
theorem C7_followup_sources_amended_w :
    (ChatResult.sources { answer := troubleMsg, sources := [] }) = [] :=
  C7_followup_sources_amended "where is it?" [] none {}
    { answer := troubleMsg, sources := [] } (by decide) (by decide) (by decide)
    (by rfl)

end DBot
